import Mathlib

/-!
Verification of the ZeusAI guardrail evaluation engine and audit ledger,
together with the frontend authentication helpers.

The guardrail core (GuardrailEvaluator, CooldownTracker, ApprovalTracker,
CommandDispatcher, AuditLedger) is not present in the repository sources;
only its database schema (`backend/init.sql`) and the frontend role helpers
(`frontend/src/contexts/AuthContext.js`) are.  Those engine components are
therefore modelled from the specification, each such definition carrying a
doc comment that says so.  The frontend definitions (`hasPermission`,
`login`) are direct translations of the JavaScript source.
-/

namespace ZeusAI

/-- Modelled from the spec: the evaluator's verdict for a command
(PERMIT, DENY with a human-readable reason, PENDING_APPROVAL). -/
inductive Verdict where
  | PERMIT
  | DENY (reason : String)
  | PENDING_APPROVAL
  deriving Repr, DecidableEq

/-- Modelled from the spec: a proposed action, immutable once submitted.
`instances`, `memory`, `cpu` are the scaling-relevant entries of the
open-ended `parameters` payload; `isOverride` is the override flag the OverrideHandler
sets when re-entering the pipeline. -/
structure Command where
  id : String
  actor : String
  action : String
  resourceType : String
  resourceId : String
  environment : String
  instances : Option Nat
  memory : Option Nat
  cpu : Option Nat
  requestedAt : Nat
  isOverride : Bool
  deriving Repr, DecidableEq

/-- Modelled from the spec: a policy's scope, an environment and/or
resource-type filter; `none` means the dimension is unconstrained. -/
structure Scope where
  environment : Option String
  resourceType : Option String
  deriving Repr, DecidableEq

/-- Whether a scope applies to a command. -/
def Scope.appliesTo (s : Scope) (cmd : Command) : Bool :=
  (match s.environment with
   | none => true
   | some e => e == cmd.environment) &&
  (match s.resourceType with
   | none => true
   | some r => r == cmd.resourceType)

/-- Modelled from the spec: kind-specific policy parameters
(allowed role list; allowed hour range + timezone offset; scaling maxima;
cooldown duration in seconds; required approver count). -/
inductive PolicyParams where
  | rbac (allowedRoles : List String)
  | changeWindow (allowedHours : List Nat) (tzOffset : Nat)
  | scalingLimit (maxInstances maxMemory maxCpu : Option Nat)
  | cooldown (duration : Nat)
  | approvalQuorum (requiredCount : Nat)
  deriving Repr, DecidableEq

/-- Modelled from the spec: a named guardrail rule. -/
structure Policy where
  id : String
  scope : Scope
  params : PolicyParams
  deriving Repr, DecidableEq

def Policy.rbacRoles? (p : Policy) : Option (List String) :=
  match p.params with
  | .rbac rs => some rs
  | _ => none

def Policy.windowParams? (p : Policy) : Option (List Nat × Nat) :=
  match p.params with
  | .changeWindow hs tz => some (hs, tz)
  | _ => none

def Policy.limitParams? (p : Policy) : Option (Option Nat × Option Nat × Option Nat) :=
  match p.params with
  | .scalingLimit i m c => some (i, m, c)
  | _ => none

def Policy.cooldownDuration? (p : Policy) : Option Nat :=
  match p.params with
  | .cooldown d => some d
  | _ => none

def Policy.quorumCount? (p : Policy) : Option Nat :=
  match p.params with
  | .approvalQuorum n => some n
  | _ => none

/-- First policy of the wanted kind whose scope applies to the command,
projected through `f`. -/
def findPolicy {β : Type} (f : Policy → Option β)
    (policies : List Policy) (cmd : Command) : Option β :=
  policies.findSome? fun p => if p.scope.appliesTo cmd then f p else none

def findRBAC (policies : List Policy) (cmd : Command) : Option (List String) :=
  findPolicy Policy.rbacRoles? policies cmd

def findChangeWindow (policies : List Policy) (cmd : Command) :
    Option (List Nat × Nat) :=
  findPolicy Policy.windowParams? policies cmd

def findScalingLimit (policies : List Policy) (cmd : Command) :
    Option (Option Nat × Option Nat × Option Nat) :=
  findPolicy Policy.limitParams? policies cmd

def findCooldown (policies : List Policy) (cmd : Command) : Option Nat :=
  findPolicy Policy.cooldownDuration? policies cmd

def findQuorum (policies : List Policy) (cmd : Command) : Option Nat :=
  findPolicy Policy.quorumCount? policies cmd

/-- The wildcard grant: a caller holding it passes every RBAC check
(mirrors the `'["*"]'` permission set of the default admin in `init.sql`). -/
def wildcardGrant : String := "*"

/-- Modelled from the spec: cooldown state for one `(resourceId, action)`
key — timestamp and magnitude of the last applied action. -/
structure CooldownEntry where
  lastAppliedAt : Nat
  lastMagnitude : Nat
  deriving Repr, DecidableEq

/-- Modelled from the spec: the CooldownTracker state, keyed by
`(resourceId, action)`. -/
abbrev CooldownMap : Type := List ((String × String) × CooldownEntry)

def lookupCooldown : CooldownMap → String × String → Option CooldownEntry
  | [], _ => none
  | (k, v) :: rest, key => if k == key then some v else lookupCooldown rest key

/-- Modelled from the spec: per-pending-command approval state; `approvers`
holds distinct actor identities. -/
structure ApprovalState where
  requiredCount : Nat
  approvers : List String
  createdAt : Nat
  expiresAt : Nat
  deriving Repr, DecidableEq

/-- Modelled from the spec: the ApprovalTracker state, keyed by command id. -/
abbrev ApprovalMap : Type := List (String × ApprovalState)

def lookupApproval : ApprovalMap → String → Option ApprovalState
  | [], _ => none
  | (k, v) :: rest, cid => if k == cid then some v else lookupApproval rest cid

def ApprovalState.quorumMet (s : ApprovalState) : Bool :=
  s.requiredCount ≤ s.approvers.length

/-- Modelled from the spec, rule 1 (RBAC): reject with
DENY("insufficient_role") unless the caller's role is in the applicable
policy's allowed-role set or the caller holds the wildcard grant; no
applicable RBAC policy means no restriction. -/
def checkRBAC (policies : List Policy) (cmd : Command)
    (callerRole : String) (grants : List String) : Option Verdict :=
  match findRBAC policies cmd with
  | none => none
  | some allowed =>
      if allowed.contains callerRole || grants.contains wildcardGrant then none
      else some (.DENY "insufficient_role")

/-- Hour of day under a timezone offset (in hours) for a Unix-style
timestamp in seconds. -/
def hourOfDay (now tzOffset : Nat) : Nat :=
  (now / 3600 + tzOffset) % 24

/-- Modelled from the spec, rule 2 (change window): reject with
DENY("outside_change_window") unless the current hour of day, in the
policy's timezone, is among the allowed hours. -/
def checkChangeWindow (policies : List Policy) (cmd : Command)
    (now : Nat) : Option Verdict :=
  match findChangeWindow policies cmd with
  | none => none
  | some (hours, tz) =>
      if hours.contains (hourOfDay now tz) then none
      else some (.DENY "outside_change_window")

/-- A requested quantity exceeds a configured maximum (absent request or
absent maximum does not). -/
def exceeds : Option Nat → Option Nat → Bool
  | some r, some l => decide (l < r)
  | _, _ => false

/-- Modelled from the spec, rule 3 (scaling limits): for scale actions,
reject with DENY("limit_exceeded") if a requested instance count / memory /
CPU exceeds the policy maximum. -/
def checkScalingLimit (policies : List Policy) (cmd : Command) : Option Verdict :=
  if cmd.action == "scale" then
    match findScalingLimit policies cmd with
    | none => none
    | some (mi, mm, mc) =>
        if exceeds cmd.instances mi || exceeds cmd.memory mm || exceeds cmd.cpu mc then
          some (.DENY "limit_exceeded")
        else none
  else none

/-- Modelled from the spec, rule 4 (cooldown): reject with
DENY("cooldown_active") if `now - lastAppliedAt < cooldownDuration` for this
resource/action, unless the command carries the override flag. -/
def checkCooldown (policies : List Policy) (cmd : Command)
    (cooldowns : CooldownMap) (now : Nat) : Option Verdict :=
  if cmd.isOverride then none
  else
    match findCooldown policies cmd with
    | none => none
    | some dur =>
        match lookupCooldown cooldowns (cmd.resourceId, cmd.action) with
        | none => none
        | some e =>
            if now - e.lastAppliedAt < dur then some (.DENY "cooldown_active")
            else none

/-- Modelled from the spec, rule 5 (approval quorum): if a policy requires N
approvers and no prior approval state exists, or the existing state has not
reached quorum, return PENDING_APPROVAL; with quorum met, no objection. -/
def checkApproval (policies : List Policy) (cmd : Command)
    (approvals : ApprovalMap) : Option Verdict :=
  match findQuorum policies cmd with
  | none => none
  | some _ =>
      match lookupApproval approvals cmd.id with
      | none => some .PENDING_APPROVAL
      | some st => if st.quorumMet then none else some .PENDING_APPROVAL

/-- Modelled from the spec: the GuardrailEvaluator decision function.  Rules
are applied in the fixed precedence order RBAC, change window, scaling
limits, cooldown, approval quorum; the first objecting rule wins and its
verdict is returned; with no objection the verdict is PERMIT. -/
def evaluate (cmd : Command) (callerRole : String) (grants : List String)
    (policies : List Policy) (cooldowns : CooldownMap)
    (approvals : ApprovalMap) (now : Nat) : Verdict :=
  match checkRBAC policies cmd callerRole grants with
  | some v => v
  | none =>
    match checkChangeWindow policies cmd now with
    | some v => v
    | none =>
      match checkScalingLimit policies cmd with
      | some v => v
      | none =>
        match checkCooldown policies cmd cooldowns now with
        | some v => v
        | none =>
          match checkApproval policies cmd approvals with
          | some v => v
          | none => .PERMIT

/-! ### ApprovalTracker operations -/

/-- Modelled from the spec: `recordApproval(commandId, approverId)` — adds
the approver to the state for `commandId` unless already counted (duplicate
approvals from the same actor are idempotent, no double counting). -/
def recordApproval : ApprovalMap → String → String → ApprovalMap
  | [], _, _ => []
  | (k, v) :: rest, cid, approver =>
      if k == cid then
        (k, if v.approvers.contains approver then v
            else { v with approvers := approver :: v.approvers }) :: rest
      else (k, v) :: recordApproval rest cid approver

/-- Modelled from the spec: `isQuorumMet(commandId)` — whether the distinct
approver count has reached the required count. -/
def isQuorumMet (m : ApprovalMap) (cid : String) : Bool :=
  match lookupApproval m cid with
  | none => false
  | some s => s.quorumMet

/-! ### AuditLedger -/

/-- Modelled from the spec: the ledger verdict recorded with an entry
(PERMIT, DENY, PENDING_APPROVAL, OVERRIDDEN, or the EXECUTION_FAILED
outcome of a permitted command whose executor failed). -/
inductive LedgerVerdict where
  | PERMIT
  | DENY (reason : String)
  | PENDING_APPROVAL
  | OVERRIDDEN
  | EXECUTION_FAILED
  deriving Repr, DecidableEq

/-- Modelled from the spec: an append-only ledger record. -/
structure LedgerEntry where
  id : Nat
  commandId : String
  actor : String
  action : String
  resourceType : String
  resourceId : String
  verdict : LedgerVerdict
  reason : String
  timestamp : Nat
  deriving Repr, DecidableEq

/-- The id-free payload of a ledger entry; `append` assigns the id. -/
structure EntryData where
  commandId : String
  actor : String
  action : String
  resourceType : String
  resourceId : String
  verdict : LedgerVerdict
  reason : String
  timestamp : Nat
  deriving Repr, DecidableEq

def EntryData.toEntry (d : EntryData) (i : Nat) : LedgerEntry :=
  { id := i, commandId := d.commandId, actor := d.actor, action := d.action,
    resourceType := d.resourceType, resourceId := d.resourceId,
    verdict := d.verdict, reason := d.reason, timestamp := d.timestamp }

/-- Modelled from the spec: the AuditLedger — monotonically increasing ids,
append-only entry list, no update or delete operation exposed. -/
structure AuditLedger where
  nextId : Nat
  entries : List LedgerEntry
  deriving Repr, DecidableEq

/-- Modelled from the spec: `append(entry) -> entryId`. -/
def AuditLedger.append (l : AuditLedger) (d : EntryData) : AuditLedger × Nat :=
  ({ nextId := l.nextId + 1, entries := l.entries ++ [d.toEntry l.nextId] },
   l.nextId)

/-- Apply a sequence of appends. -/
def AuditLedger.appendAll (l : AuditLedger) (ds : List EntryData) : AuditLedger :=
  ds.foldl (fun acc d => (acc.append d).1) l

/-- Modelled from the spec: a ledger query filter — by actor, resource,
time range and verdict; `none` leaves the dimension unconstrained. -/
structure QueryFilter where
  actor : Option String
  resourceId : Option String
  fromTime : Option Nat
  toTime : Option Nat
  verdict : Option LedgerVerdict
  deriving Repr, DecidableEq

def matchesFilter (f : QueryFilter) (e : LedgerEntry) : Bool :=
  (match f.actor with | none => true | some a => a == e.actor) &&
  (match f.resourceId with | none => true | some r => r == e.resourceId) &&
  (match f.fromTime with | none => true | some t => decide (t ≤ e.timestamp)) &&
  (match f.toTime with | none => true | some t => decide (e.timestamp ≤ t)) &&
  (match f.verdict with | none => true | some v => v == e.verdict)

/-- Modelled from the spec: `query(filter)` — the filtered entries in stored
(id-ascending) order. -/
def AuditLedger.query (l : AuditLedger) (f : QueryFilter) : List LedgerEntry :=
  l.entries.filter (matchesFilter f)

/-- Well-formedness of a ledger: entries carry strictly increasing ids, all
below the next id to be assigned. -/
def AuditLedger.WF (l : AuditLedger) : Prop :=
  l.entries.Pairwise (fun a b => a.id < b.id) ∧ ∀ e ∈ l.entries, e.id < l.nextId

instance (l : AuditLedger) : Decidable l.WF := by
  unfold AuditLedger.WF
  infer_instance

/-! ### CommandDispatcher -/

/-- Modelled from the spec: the mutable state the dispatcher threads —
audit ledger, cooldown tracker and approval tracker. -/
structure SysState where
  ledger : AuditLedger
  cooldowns : CooldownMap
  approvals : ApprovalMap

/-- Modelled from the spec: `DispatchResult{verdict, reason, ledgerEntryId}`. -/
structure DispatchResult where
  verdict : LedgerVerdict
  reason : String
  ledgerEntryId : Nat
  deriving Repr, DecidableEq

/-- Modelled from the spec: `recordApplied(resourceId, action, magnitude, at)`
of the CooldownTracker. -/
def recordApplied (m : CooldownMap) (resourceId action : String)
    (magnitude t : Nat) : CooldownMap :=
  ((resourceId, action), { lastAppliedAt := t, lastMagnitude := magnitude })
    :: (m : List ((String × String) × CooldownEntry)).filter
        (fun e => e.1 != (resourceId, action))

/-- Modelled from the spec: time-to-live for a freshly created approval
state (a fixed window after which the pending command expires). -/
def approvalTTL : Nat := 3600

def entryFor (cmd : Command) (v : LedgerVerdict) (reason : String)
    (now : Nat) : EntryData :=
  { commandId := cmd.id, actor := cmd.actor, action := cmd.action,
    resourceType := cmd.resourceType, resourceId := cmd.resourceId,
    verdict := v, reason := reason, timestamp := now }

/-- Modelled from the spec: `CommandDispatcher.submit` — evaluate the
command, on PERMIT invoke the external executor (recording the cooldown
application only on success), on DENY/PENDING return the reason without
executing, and in every case write exactly one ledger entry. -/
def submit (st : SysState) (cmd : Command) (callerRole : String)
    (grants : List String) (policies : List Policy)
    (executor : Command → Bool) (now : Nat) : SysState × DispatchResult :=
  match evaluate cmd callerRole grants policies st.cooldowns st.approvals now with
  | .PERMIT =>
      if executor cmd then
        let (l, eid) := st.ledger.append (entryFor cmd .PERMIT "" now)
        ({ ledger := l,
           cooldowns := recordApplied st.cooldowns cmd.resourceId cmd.action
             (cmd.instances.getD 0) now,
           approvals := st.approvals },
         { verdict := .PERMIT, reason := "", ledgerEntryId := eid })
      else
        let (l, eid) :=
          st.ledger.append (entryFor cmd .EXECUTION_FAILED "executor_failure" now)
        ({ ledger := l, cooldowns := st.cooldowns, approvals := st.approvals },
         { verdict := .EXECUTION_FAILED, reason := "executor_failure",
           ledgerEntryId := eid })
  | .DENY r =>
      let (l, eid) := st.ledger.append (entryFor cmd (.DENY r) r now)
      ({ ledger := l, cooldowns := st.cooldowns, approvals := st.approvals },
       { verdict := .DENY r, reason := r, ledgerEntryId := eid })
  | .PENDING_APPROVAL =>
      let (l, eid) :=
        st.ledger.append (entryFor cmd .PENDING_APPROVAL "approval_required" now)
      let approvals :=
        match lookupApproval st.approvals cmd.id with
        | some _ => st.approvals
        | none =>
            (cmd.id,
             { requiredCount := (findQuorum policies cmd).getD 0,
               approvers := [], createdAt := now,
               expiresAt := now + approvalTTL }) :: st.approvals
      ({ ledger := l, cooldowns := st.cooldowns, approvals := approvals },
       { verdict := .PENDING_APPROVAL, reason := "approval_required",
         ledgerEntryId := eid })

/-! ### Frontend authentication (`AuthContext.js`) -/

/-- The user record stored by the frontend auth context on login. -/
structure User where
  id : Nat
  username : String
  email : String
  full_name : String
  role : String
  is_superuser : Bool
  deriving Repr, DecidableEq

/-- Result of a JavaScript expression that may throw: a returned value, or
a thrown TypeError. -/
inductive JsResult (α : Type) where
  | ok (value : α)
  | typeError
  deriving Repr, DecidableEq

/-- The property names a plain object literal inherits from
`Object.prototype` (plus the `__proto__` accessor): indexing the
`rolePermissions` literal with one of these yields a non-nullish inherited
member rather than `undefined`. -/
def objectProtoKeys : List String :=
  ["constructor", "hasOwnProperty", "isPrototypeOf", "propertyIsEnumerable",
   "toLocaleString", "toString", "valueOf", "__defineGetter__",
   "__defineSetter__", "__lookupGetter__", "__lookupSetter__", "__proto__"]

/-- What the lookup `rolePermissions[user.role]` inside `hasPermission`
yields in JavaScript, on the literal
`{dev: ['read','deploy','scale'], viewer: ['read']}`: one of the two own
array properties; for a key inherited via the prototype chain a non-nullish
member without an `includes` method; `undefined` for every other role. -/
inductive RoleLookup where
  | arr (permissions : List String)
  | protoMember
  | undefined
  deriving Repr, DecidableEq

def rolePermissions (role : String) : RoleLookup :=
  if role == "dev" then .arr ["read", "deploy", "scale"]
  else if role == "viewer" then .arr ["read"]
  else if objectProtoKeys.contains role then .protoMember
  else .undefined

/-- `hasPermission(permission)` from `AuthContext.js`: `false` with no user;
`true` for role `admin` or a superuser; otherwise
`rolePermissions[user.role]?.includes(permission) || false` — membership in
the role's own array entry, `false` when the lookup is `undefined` (the
optional chain short-circuits), and a thrown TypeError when the lookup hits
an inherited prototype member, which is non-nullish but has no `includes`
method. -/
def hasPermission (user : Option User) (permission : String) : JsResult Bool :=
  match user with
  | none => .ok false
  | some u =>
      if u.role == "admin" || u.is_superuser then .ok true
      else
        match rolePermissions u.role with
        | .arr ps => .ok (ps.contains permission)
        | .protoMember => .typeError
        | .undefined => .ok false

/-- The authentication state the frontend keeps: the React `user` and
`isAuthenticated` states plus the two localStorage keys (`auth_token`,
`user_data`, the latter modelled as the parsed user record it serialises). -/
structure AuthState where
  user : Option User
  isAuthenticated : Bool
  storedToken : Option String
  storedUserData : Option User
  deriving Repr, DecidableEq

/-- The result object `login` returns. -/
structure LoginResult where
  success : Bool
  error : Option String
  deriving Repr, DecidableEq

/-- The hard-coded user record `login` builds on success. -/
def adminUser : User :=
  { id := 1, username := "admin", email := "admin@zeusai.com",
    full_name := "ZeusAI Administrator", role := "admin", is_superuser := true }

/-- `login(username, password)` from `AuthContext.js`: with the exact
credentials `admin` / `admin123` it sets the user, marks the session
authenticated, stores the token and user data, and returns success;
otherwise it returns `{success: false, error: 'Invalid credentials'}` and
changes nothing. -/
def login (username password : String) (st : AuthState) :
    LoginResult × AuthState :=
  if username == "admin" && password == "admin123" then
    ({ success := true, error := none },
     { user := some adminUser, isAuthenticated := true,
       storedToken := some "mock_token", storedUserData := some adminUser })
  else
    ({ success := false, error := some "Invalid credentials" }, st)

/-! ### Concrete fixtures used by witnesses and counterexamples -/

/-- A concrete production scale command. -/
def cmd0 : Command :=
  { id := "c1", actor := "bob", action := "scale", resourceType := "service",
    resourceId := "web-1", environment := "production", instances := some 5,
    memory := none, cpu := none, requestedAt := 300, isOverride := false }

/-- An RBAC policy that allows nobody (empty allowed-role set). -/
def rbacPolicy0 : Policy :=
  { id := "rbac-1", scope := { environment := none, resourceType := none },
    params := .rbac [] }

/-- A cooldown policy with a 600-second window, unconstrained scope. -/
def cooldownPolicy600 : Policy :=
  { id := "cool-1", scope := { environment := none, resourceType := none },
    params := .cooldown 600 }

/-- Cooldown state: `web-1`/`scale` last applied at time 100. -/
def cooldowns0 : CooldownMap :=
  [(("web-1", "scale"), { lastAppliedAt := 100, lastMagnitude := 3 })]

/-- Approval state: command `c1` waits for 2 approvers, none yet. -/
def approvals0 : ApprovalMap :=
  [("c1", { requiredCount := 2, approvers := [], createdAt := 0,
            expiresAt := 100 })]

/-- An executor that always reports success. -/
def alwaysSucceeds : Command → Bool := fun _ => true

/-- Strict id order on ledger entries. -/
def entryIdLt (a b : LedgerEntry) : Prop := a.id < b.id

instance : DecidableRel entryIdLt := fun a b => by
  unfold entryIdLt
  infer_instance

/-! ### Claim C1 -/

/-- C1: a command whose caller's role is not in the applicable RBAC policy's
allowed-role set and who does not hold the wildcard grant is denied with
reason "insufficient_role", for every environment, cooldown/approval state
and submission time. -/
theorem rbac_denies_without_role (cmd : Command) (callerRole : String)
    (grants : List String) (policies : List Policy) (cooldowns : CooldownMap)
    (approvals : ApprovalMap) (now : Nat) (allowed : List String)
    (hfind : findRBAC policies cmd = some allowed)
    (hrole : allowed.contains callerRole = false)
    (hwild : grants.contains wildcardGrant = false) :
    evaluate cmd callerRole grants policies cooldowns approvals now =
      .DENY "insufficient_role" := by
  have h1 : callerRole ∉ allowed := by simpa using hrole
  have h2 : wildcardGrant ∉ grants := by simpa using hwild
  unfold evaluate checkRBAC
  rw [hfind]
  simp [h1, h2]

/-- Witness for C1 at a concrete command, caller and policy set. -/
theorem rbac_denies_without_role_witness :
    findRBAC [rbacPolicy0] cmd0 = some [] ∧
    List.contains [] "viewer" = false ∧
    evaluate cmd0 "viewer" [] [rbacPolicy0] [] [] 300 =
      .DENY "insufficient_role" :=
  ⟨by decide, by decide,
   rbac_denies_without_role cmd0 "viewer" [] [rbacPolicy0] [] [] 300 []
     (by decide) (by decide) (by decide)⟩

/-! ### Claim C2 -/

/-- C2: the evaluator applies the rules in the fixed order RBAC, change
window, scaling limits, cooldown, approval quorum; the verdict (with its
reason) is that of the first rule that rejects, and PERMIT when none does. -/
theorem evaluate_first_rejecting_rule (cmd : Command) (callerRole : String)
    (grants : List String) (policies : List Policy) (cooldowns : CooldownMap)
    (approvals : ApprovalMap) (now : Nat) :
    evaluate cmd callerRole grants policies cooldowns approvals now =
      (([checkRBAC policies cmd callerRole grants,
         checkChangeWindow policies cmd now,
         checkScalingLimit policies cmd,
         checkCooldown policies cmd cooldowns now,
         checkApproval policies cmd approvals].findSome? id).getD
        .PERMIT) := by
  unfold evaluate
  cases checkRBAC policies cmd callerRole grants <;>
    cases checkChangeWindow policies cmd now <;>
      cases checkScalingLimit policies cmd <;>
        cases checkCooldown policies cmd cooldowns now <;>
          cases checkApproval policies cmd approvals <;>
            simp [List.findSome?]

/-! ### Claim C8 -/

/-- With no applicable policy, a kind-specific lookup yields nothing. -/
theorem findPolicy_eq_none {β : Type} (f : Policy → Option β)
    (policies : List Policy) (cmd : Command)
    (h : ∀ p ∈ policies, p.scope.appliesTo cmd = false) :
    findPolicy f policies cmd = none := by
  induction policies with
  | nil => rfl
  | cons p ps ih =>
      have hp := h p (List.mem_cons_self p ps)
      have hrest : ∀ q ∈ ps, q.scope.appliesTo cmd = false :=
        fun q hq => h q (List.mem_cons_of_mem p hq)
      simp [findPolicy, List.findSome?_cons, hp] at ih ⊢
      exact ih hrest

/-- C8: a rule kind with no matching policy imposes no restriction (its
check yields no objection), and a command matched by no policy of any kind
evaluates to PERMIT — policy absence is not an implicit deny. -/
theorem no_matching_policy_permits (cmd : Command) (callerRole : String)
    (grants : List String) (policies : List Policy) (cooldowns : CooldownMap)
    (approvals : ApprovalMap) (now : Nat) :
    (findRBAC policies cmd = none →
      checkRBAC policies cmd callerRole grants = none) ∧
    (findChangeWindow policies cmd = none →
      checkChangeWindow policies cmd now = none) ∧
    (findScalingLimit policies cmd = none →
      checkScalingLimit policies cmd = none) ∧
    (findCooldown policies cmd = none →
      checkCooldown policies cmd cooldowns now = none) ∧
    (findQuorum policies cmd = none →
      checkApproval policies cmd approvals = none) ∧
    ((∀ p ∈ policies, p.scope.appliesTo cmd = false) →
      evaluate cmd callerRole grants policies cooldowns approvals now =
        .PERMIT) := by
  have k1 : findRBAC policies cmd = none →
      checkRBAC policies cmd callerRole grants = none := by
    intro h; simp [checkRBAC, h]
  have k2 : findChangeWindow policies cmd = none →
      checkChangeWindow policies cmd now = none := by
    intro h; simp [checkChangeWindow, h]
  have k3 : findScalingLimit policies cmd = none →
      checkScalingLimit policies cmd = none := by
    intro h; unfold checkScalingLimit; rw [h]; split <;> rfl
  have k4 : findCooldown policies cmd = none →
      checkCooldown policies cmd cooldowns now = none := by
    intro h; unfold checkCooldown; rw [h]; split <;> rfl
  have k5 : findQuorum policies cmd = none →
      checkApproval policies cmd approvals = none := by
    intro h; simp [checkApproval, h]
  refine ⟨k1, k2, k3, k4, k5, ?_⟩
  intro h
  have h1 := findPolicy_eq_none Policy.rbacRoles? policies cmd h
  have h2 := findPolicy_eq_none Policy.windowParams? policies cmd h
  have h3 := findPolicy_eq_none Policy.limitParams? policies cmd h
  have h4 := findPolicy_eq_none Policy.cooldownDuration? policies cmd h
  have h5 := findPolicy_eq_none Policy.quorumCount? policies cmd h
  simp [evaluate, k1 h1, k2 h2, k3 h3, k4 h4, k5 h5]

/-- Witness for C8: a dev-scoped policy set does not restrict a production
command, which is permitted outright. -/
theorem no_matching_policy_permits_witness :
    evaluate cmd0 "viewer" []
      [{ id := "rbac-dev", scope := { environment := some "dev",
                                      resourceType := none },
         params := .rbac [] }] [] [] 300 = .PERMIT :=
  (no_matching_policy_permits cmd0 "viewer" []
      [{ id := "rbac-dev", scope := { environment := some "dev",
                                      resourceType := none },
         params := .rbac [] }] [] [] 300).2.2.2.2.2 (by decide)

/-! ### Claim C3 -/

theorem take_length_append {α : Type} (l₁ l₂ : List α) :
    (l₁ ++ l₂).take l₁.length = l₁ := by
  induction l₁ with
  | nil => rfl
  | cons a l ih => simp [ih]

/-- Appending preserves ledger well-formedness. -/
theorem append_WF {l : AuditLedger} (h : l.WF) (d : EntryData) :
    (l.append d).1.WF := by
  obtain ⟨hp, hb⟩ := h
  constructor
  · refine List.pairwise_append.mpr ⟨hp, List.pairwise_singleton _ _, ?_⟩
    intro a ha b hbm
    simp [AuditLedger.append, EntryData.toEntry] at hbm
    subst hbm
    exact hb a ha
  · intro e he
    simp [AuditLedger.append, EntryData.toEntry] at he
    rcases he with he | he
    · exact Nat.lt_succ_of_lt (hb e he)
    · subst he; exact Nat.lt_succ_self _

theorem appendAll_WF {l : AuditLedger} (h : l.WF) (ds : List EntryData) :
    (l.appendAll ds).WF := by
  induction ds generalizing l with
  | nil => exact h
  | cons d ds ih => exact ih (append_WF h d)

/-- A sequence of appends leaves the existing entries as an unchanged
initial segment. -/
theorem appendAll_take (l : AuditLedger) (ds : List EntryData) :
    (l.appendAll ds).entries.take l.entries.length = l.entries := by
  induction ds generalizing l with
  | nil => exact List.take_length l.entries
  | cons d ds ih =>
      have h2 := ih (l.append d).1
      have hlen : l.entries.length ≤ (l.append d).1.entries.length := by
        simp [AuditLedger.append]
      have hstep : (l.appendAll (d :: ds)).entries.take l.entries.length =
          ((l.appendAll (d :: ds)).entries.take
            (l.append d).1.entries.length).take l.entries.length := by
        rw [List.take_take, Nat.min_eq_left hlen]
      rw [hstep]
      have hroll : l.appendAll (d :: ds) = (l.append d).1.appendAll ds := rfl
      rw [hroll, h2]
      simp [AuditLedger.append]

/-- C3: ledger entries are never updated or deleted — after any sequence of
appends every previously appended entry is still present and unchanged (the
old entries are an unchanged initial segment), well-formedness is preserved,
and `query` returns entries in strictly ascending id order for any fixed
filter. -/
theorem ledger_append_only (l : AuditLedger) (ds : List EntryData)
    (f : QueryFilter) (h : l.WF) :
    (l.appendAll ds).entries.take l.entries.length = l.entries ∧
    (l.appendAll ds).WF ∧
    ((l.appendAll ds).query f).Pairwise entryIdLt := by
  refine ⟨appendAll_take l ds, appendAll_WF h ds, ?_⟩
  exact List.Pairwise.sublist (List.filter_sublist _) (appendAll_WF h ds).1

/-- Witness for C3: an empty ledger, two appends, an unconstrained query. -/
theorem ledger_append_only_witness :
    AuditLedger.WF { nextId := 0, entries := [] } ∧
    (AuditLedger.appendAll { nextId := 0, entries := [] }
        [entryFor cmd0 (.DENY "insufficient_role") "insufficient_role" 300,
         entryFor cmd0 .PERMIT "" 400]).WF ∧
    ((AuditLedger.appendAll { nextId := 0, entries := [] }
        [entryFor cmd0 (.DENY "insufficient_role") "insufficient_role" 300,
         entryFor cmd0 .PERMIT "" 400]).query
      { actor := none, resourceId := none, fromTime := none, toTime := none,
        verdict := none }).Pairwise entryIdLt :=
  ⟨by decide,
   (ledger_append_only { nextId := 0, entries := [] }
      [entryFor cmd0 (.DENY "insufficient_role") "insufficient_role" 300,
       entryFor cmd0 .PERMIT "" 400]
      { actor := none, resourceId := none, fromTime := none, toTime := none,
        verdict := none } (by decide)).2.1,
   (ledger_append_only { nextId := 0, entries := [] }
      [entryFor cmd0 (.DENY "insufficient_role") "insufficient_role" 300,
       entryFor cmd0 .PERMIT "" 400]
      { actor := none, resourceId := none, fromTime := none, toTime := none,
        verdict := none } (by decide)).2.2⟩

/-! ### Claim C4 -/

/-- Effect of `recordApproval` on the lookup of the same command id. -/
theorem lookup_recordApproval (m : ApprovalMap) (cid a : String) :
    lookupApproval (recordApproval m cid a) cid =
      (lookupApproval m cid).map
        (fun v => if v.approvers.contains a then v
                  else { v with approvers := a :: v.approvers }) := by
  induction m with
  | nil => rfl
  | cons e m ih =>
      obtain ⟨k, v⟩ := e
      cases hk : k == cid
      · simp [recordApproval, lookupApproval, hk, ih]
      · simp [recordApproval, lookupApproval, hk]

/-- An approval by an actor already counted leaves the state unchanged. -/
theorem recordApproval_mem (m : ApprovalMap) (cid a : String)
    (v : ApprovalState) (h : lookupApproval m cid = some v)
    (ha : v.approvers.contains a = true) :
    recordApproval m cid a = m := by
  induction m with
  | nil => rfl
  | cons e m ih =>
      obtain ⟨k, w⟩ := e
      cases hk : k == cid
      · simp [lookupApproval, hk] at h
        simp [recordApproval, hk, ih h]
      · simp [lookupApproval, hk] at h
        subst h
        have ha' : a ∈ w.approvers := by simpa using ha
        simp [recordApproval, hk, ha']

/-- C4: with `requiredCount = 2` and no approvers yet, quorum is not met
after one distinct approver, is met after a second distinct approver, a
further approval by an already-counted actor changes nothing, and
`recordApproval` by the same actor is idempotent. -/
theorem approval_quorum_two (m : ApprovalMap) (cid a b : String)
    (c0 e0 : Nat)
    (hst : lookupApproval m cid =
      some { requiredCount := 2, approvers := [], createdAt := c0,
             expiresAt := e0 })
    (hab : a ≠ b) :
    isQuorumMet (recordApproval m cid a) cid = false ∧
    isQuorumMet (recordApproval (recordApproval m cid a) cid b) cid = true ∧
    recordApproval (recordApproval (recordApproval m cid a) cid b) cid a =
      recordApproval (recordApproval m cid a) cid b ∧
    recordApproval (recordApproval m cid a) cid a =
      recordApproval m cid a := by
  have hne : ¬b = a := fun hc => hab hc.symm
  have l1 : lookupApproval (recordApproval m cid a) cid =
      some { requiredCount := 2, approvers := [a], createdAt := c0,
             expiresAt := e0 } := by
    rw [lookup_recordApproval, hst]
    simp
  have l2 : lookupApproval
        (recordApproval (recordApproval m cid a) cid b) cid =
      some { requiredCount := 2, approvers := [b, a], createdAt := c0,
             expiresAt := e0 } := by
    rw [lookup_recordApproval, l1]
    simp [hne]
  refine ⟨?_, ?_, ?_, ?_⟩
  · simp [isQuorumMet, l1, ApprovalState.quorumMet]
  · simp [isQuorumMet, l2, ApprovalState.quorumMet]
  · exact recordApproval_mem _ cid a _ l2 (by simp)
  · exact recordApproval_mem _ cid a _ l1 (by simp)

/-- Witness for C4 at a concrete two-approver pending command. -/
theorem approval_quorum_two_witness :
    lookupApproval approvals0 "c1" =
      some { requiredCount := 2, approvers := [], createdAt := 0,
             expiresAt := 100 } ∧
    isQuorumMet (recordApproval approvals0 "c1" "alice") "c1" = false ∧
    isQuorumMet (recordApproval (recordApproval approvals0 "c1" "alice")
      "c1" "bob") "c1" = true := by
  have h := approval_quorum_two approvals0 "c1" "alice" "bob" 0 100
    (by decide) (by decide)
  exact ⟨by decide, h.1, h.2.1⟩

/-! ### Claim C5 -/

/-- A rejecting RBAC check only ever reports "insufficient_role". -/
theorem checkRBAC_isDeny (policies : List Policy) (cmd : Command)
    (callerRole : String) (grants : List String) (v : Verdict)
    (h : checkRBAC policies cmd callerRole grants = some v) :
    v = .DENY "insufficient_role" := by
  unfold checkRBAC at h
  cases hf : findRBAC policies cmd <;> rw [hf] at h
  · simp at h
  · split at h <;> simp_all

/-- A rejecting change-window check only ever reports
"outside_change_window". -/
theorem checkChangeWindow_isDeny (policies : List Policy) (cmd : Command)
    (now : Nat) (v : Verdict)
    (h : checkChangeWindow policies cmd now = some v) :
    v = .DENY "outside_change_window" := by
  unfold checkChangeWindow at h
  cases hf : findChangeWindow policies cmd <;> rw [hf] at h
  · simp at h
  · split at h <;> simp_all

/-- A rejecting scaling-limit check only ever reports "limit_exceeded". -/
theorem checkScalingLimit_isDeny (policies : List Policy) (cmd : Command)
    (v : Verdict) (h : checkScalingLimit policies cmd = some v) :
    v = .DENY "limit_exceeded" := by
  unfold checkScalingLimit at h
  split at h
  · cases hf : findScalingLimit policies cmd <;> rw [hf] at h
    · simp at h
    · split at h <;> simp_all
  · simp at h

/-- C5 counterexample: the claim as stated fails, because an earlier rule
can reject first.  Here the cooldown window is active for a non-override
command, yet the verdict is DENY("insufficient_role") from the RBAC rule,
not DENY("cooldown_active"). -/
theorem cooldown_claim_counterexample :
    findCooldown [rbacPolicy0, cooldownPolicy600] cmd0 = some 600 ∧
    lookupCooldown cooldowns0 (cmd0.resourceId, cmd0.action) =
      some { lastAppliedAt := 100, lastMagnitude := 3 } ∧
    300 - 100 < 600 ∧
    cmd0.isOverride = false ∧
    evaluate cmd0 "viewer" [] [rbacPolicy0, cooldownPolicy600] cooldowns0
      [] 300 ≠ Verdict.DENY "cooldown_active" := by
  decide

/-- C5 (amended): a non-override command whose resource/action cooldown
satisfies `now - lastAppliedAt < cooldownDuration` is always rejected with
a DENY (never PERMIT, never PENDING_APPROVAL), and the reason is
"cooldown_active" whenever no earlier rule (RBAC, change window, scaling
limit) rejects first. -/
theorem cooldown_active_denies (cmd : Command) (callerRole : String)
    (grants : List String) (policies : List Policy) (cooldowns : CooldownMap)
    (approvals : ApprovalMap) (now dur : Nat) (e : CooldownEntry)
    (hover : cmd.isOverride = false)
    (hfind : findCooldown policies cmd = some dur)
    (hlook : lookupCooldown cooldowns (cmd.resourceId, cmd.action) = some e)
    (hlt : now - e.lastAppliedAt < dur) :
    evaluate cmd callerRole grants policies cooldowns approvals now ≠
      .PERMIT ∧
    evaluate cmd callerRole grants policies cooldowns approvals now ≠
      .PENDING_APPROVAL ∧
    (checkRBAC policies cmd callerRole grants = none →
     checkChangeWindow policies cmd now = none →
     checkScalingLimit policies cmd = none →
     evaluate cmd callerRole grants policies cooldowns approvals now =
       .DENY "cooldown_active") := by
  have hc : checkCooldown policies cmd cooldowns now =
      some (.DENY "cooldown_active") := by
    unfold checkCooldown
    rw [hover, hfind, hlook]
    simp [hlt]
  cases h1 : checkRBAC policies cmd callerRole grants with
  | some v =>
      have hv := checkRBAC_isDeny policies cmd callerRole grants v h1
      subst hv
      refine ⟨?_, ?_, ?_⟩
      · simp [evaluate, h1]
      · simp [evaluate, h1]
      · intro hna _ _; simp_all
  | none =>
    cases h2 : checkChangeWindow policies cmd now with
    | some v =>
        have hv := checkChangeWindow_isDeny policies cmd now v h2
        subst hv
        refine ⟨?_, ?_, ?_⟩
        · simp [evaluate, h1, h2]
        · simp [evaluate, h1, h2]
        · intro _ hnb _; simp_all
    | none =>
      cases h3 : checkScalingLimit policies cmd with
      | some v =>
          have hv := checkScalingLimit_isDeny policies cmd v h3
          subst hv
          refine ⟨?_, ?_, ?_⟩
          · simp [evaluate, h1, h2, h3]
          · simp [evaluate, h1, h2, h3]
          · intro _ _ hnc; simp_all
      | none =>
          refine ⟨?_, ?_, ?_⟩
          · simp [evaluate, h1, h2, h3, hc]
          · simp [evaluate, h1, h2, h3, hc]
          · intro _ _ _; simp [evaluate, h1, h2, h3, hc]

/-- Witness for C5 (amended): with only a cooldown policy in force, a
command inside the window is denied with reason "cooldown_active". -/
theorem cooldown_active_denies_witness :
    findCooldown [cooldownPolicy600] cmd0 = some 600 ∧
    cmd0.isOverride = false ∧
    evaluate cmd0 "admin" [] [cooldownPolicy600] cooldowns0 [] 300 =
      .DENY "cooldown_active" := by
  have h := cooldown_active_denies cmd0 "admin" [] [cooldownPolicy600]
    cooldowns0 [] 300 600 { lastAppliedAt := 100, lastMagnitude := 3 }
    (by decide) (by decide) (by decide) (by decide)
  exact ⟨by decide, by decide, h.2.2 (by decide) (by decide) (by decide)⟩

/-! ### Claim C6 -/

/-- C6: the cooldown state is untouched by any dispatch that does not reach
PERMIT with a successful execution — after a DENY, a PENDING_APPROVAL or a
failed execution, `lastAppliedAt`/`lastMagnitude` are exactly as before. -/
theorem cooldown_updated_only_on_success (st : SysState) (cmd : Command)
    (callerRole : String) (grants : List String) (policies : List Policy)
    (executor : Command → Bool) (now : Nat)
    (h : ¬(evaluate cmd callerRole grants policies st.cooldowns st.approvals
              now = .PERMIT ∧
           executor cmd = true)) :
    (submit st cmd callerRole grants policies executor now).1.cooldowns =
      st.cooldowns := by
  cases hv : evaluate cmd callerRole grants policies st.cooldowns
      st.approvals now with
  | PERMIT =>
      cases hx : executor cmd
      · simp [submit, hv, hx]
      · exact absurd ⟨hv, hx⟩ h
  | DENY r => simp [submit, hv]
  | PENDING_APPROVAL => simp [submit, hv]

/-- Witness for C6: a denied command leaves the cooldown state unchanged
even though the executor would have succeeded. -/
theorem cooldown_updated_only_on_success_witness :
    evaluate cmd0 "viewer" [] [rbacPolicy0] cooldowns0 [] 300 =
      .DENY "insufficient_role" ∧
    (submit { ledger := { nextId := 0, entries := [] },
              cooldowns := cooldowns0, approvals := [] }
      cmd0 "viewer" [] [rbacPolicy0] alwaysSucceeds 300).1.cooldowns =
      cooldowns0 :=
  ⟨by decide,
   cooldown_updated_only_on_success
     { ledger := { nextId := 0, entries := [] },
       cooldowns := cooldowns0, approvals := [] }
     cmd0 "viewer" [] [rbacPolicy0] alwaysSucceeds 300 (by decide)⟩

/-! ### Claim C7 -/

/-- C7: every call to `submit` appends exactly one ledger entry — the new
entry list is one longer, with the previous entries as an unchanged initial
segment, and the appended entry carries the dispatch verdict. -/
theorem submit_appends_one_entry (st : SysState) (cmd : Command)
    (callerRole : String) (grants : List String) (policies : List Policy)
    (executor : Command → Bool) (now : Nat) :
    (submit st cmd callerRole grants policies executor now).1.ledger.entries.length
      = st.ledger.entries.length + 1 ∧
    (submit st cmd callerRole grants policies executor now).1.ledger.entries.take
      st.ledger.entries.length = st.ledger.entries ∧
    ((submit st cmd callerRole grants policies executor now).1.ledger.entries.getLast?.map
      LedgerEntry.verdict) =
      some (submit st cmd callerRole grants policies executor now).2.verdict := by
  cases hv : evaluate cmd callerRole grants policies st.cooldowns
      st.approvals now with
  | PERMIT =>
      cases hx : executor cmd <;>
        simp [submit, hv, hx, AuditLedger.append, take_length_append,
          entryFor, EntryData.toEntry]
  | DENY r =>
      simp [submit, hv, AuditLedger.append, take_length_append, entryFor,
        EntryData.toEntry]
  | PENDING_APPROVAL =>
      simp [submit, hv, AuditLedger.append, take_length_append, entryFor,
        EntryData.toEntry]

/-! ### Claim C9 -/

/-- C9: `hasPermission` returns false whenever no user is logged in, and
for a logged-in user it returns true exactly when the role is `admin`, the
user is a superuser, or the permission is in the fixed list for the role
(`dev`: read, deploy, scale; `viewer`: read).  For a prototype-chain role
key the source throws a TypeError, which is not a `true` return, so the
equivalence covers those inputs as well. -/
theorem hasPermission_spec (u : User) (p : String) :
    hasPermission none p = .ok false ∧
    (hasPermission (some u) p = .ok true ↔
      (u.role = "admin" ∨ u.is_superuser = true ∨
       (u.role = "dev" ∧ (p = "read" ∨ p = "deploy" ∨ p = "scale")) ∨
       (u.role = "viewer" ∧ p = "read"))) := by
  refine ⟨rfl, ?_⟩
  by_cases h1 : u.role = "admin" <;>
    by_cases h3 : u.role = "dev" <;>
      by_cases h4 : u.role = "viewer" <;>
        cases h2 : u.is_superuser <;>
          simp [hasPermission, rolePermissions, h1, h2, h3, h4] <;>
            (by_cases hpk : u.role ∈ objectProtoKeys; all_goals simp [hpk])

/-! ### Claim C10 -/

/-- C10: `login` succeeds exactly on the credentials `admin` / `admin123`;
on any other credentials it returns `{success: false, error: 'Invalid
credentials'}` and leaves the authentication state (user, isAuthenticated,
stored token and user data) unchanged. -/
theorem login_spec (u p : String) (st : AuthState) :
    ((login u p st).1.success = true ↔ (u = "admin" ∧ p = "admin123")) ∧
    (¬(u = "admin" ∧ p = "admin123") →
      (login u p st).1 =
        { success := false, error := some "Invalid credentials" } ∧
      (login u p st).2 = st) := by
  by_cases h1 : u = "admin" <;> by_cases h2 : p = "admin123" <;>
    simp [login, h1, h2]

end ZeusAI
